import Mathlib

set_option maxRecDepth 100000

/-!
Verification development for the predticker repository.

The core under study is the feature-computation / weighted-scoring
prediction engine (`src/enhanced_predictor.py`,
`src/enhanced_predictor_adaptive.py`), the regime-adaptive weight search
(`src/regime_weights.py`, `src/adaptive_weights.py`) and the backtest
replay loop (`src/backtest.py`).

Modelling conventions:
 - Python/numpy floating point values are modelled exactly: a value is
   either a rational number, positive or negative infinity, or NaN
   (type `FVal`).  IEEE comparison semantics (every comparison with NaN
   is false, `NaN != x` is true) and numpy division semantics
   (`x/0 = ±inf` for `x ≠ 0`, `0/0 = NaN`) are reproduced; rounding of
   binary floating point is not modelled (all arithmetic is exact).
 - pandas Series are lists of `FVal`.  Rolling windows with
   `min_periods = window` return NaN while the window is not full or
   contains NaN; `Series.mean()`/`Series.std()` skip NaN entries;
   `ewm(span=s).mean()` uses pandas defaults `adjust=True`,
   `ignore_na=False`; row-wise `max(axis=1)` skips NaN.
 - The square root used by `std` is kept as an explicit parameter
   `sqrt : ℚ → ℚ`; theorems that depend on a square-root value
   constrain it by hypotheses (for the series analysed here only
   `sqrt 0 = 0` is ever needed).  `ratSqrt` is a concrete instance that
   is exact on squares of rationals, in particular `ratSqrt 0 = 0`.
 - Python `min`/`max` are modelled argument-order-faithfully
   (`min(a, b)` returns `b` only when `b < a`, so `min(1.0, NaN) = 1.0`
   while `min(NaN, 1.0) = NaN`).
-/

namespace Predticker

/-- A Python/numpy floating point value: NaN, one of the two infinities,
or a finite value (modelled as an exact rational). -/
inductive FVal where
  | nan  : FVal
  | pinf : FVal
  | ninf : FVal
  | fin  : ℚ → FVal
deriving DecidableEq

namespace FVal

/-- IEEE strict less-than: false whenever either side is NaN. -/
def lt : FVal → FVal → Bool
  | nan, _ => false
  | _, nan => false
  | pinf, _ => false
  | ninf, ninf => false
  | ninf, _ => true
  | fin _, pinf => true
  | fin _, ninf => false
  | fin a, fin b => a < b

/-- IEEE equality: false whenever either side is NaN (`NaN == NaN` is false). -/
def eqv : FVal → FVal → Bool
  | nan, _ => false
  | _, nan => false
  | pinf, pinf => true
  | ninf, ninf => true
  | fin a, fin b => a == b
  | _, _ => false

/-- IEEE less-or-equal. -/
def le (a b : FVal) : Bool := lt a b || eqv a b

/-- True exactly on NaN. -/
def isNan : FVal → Bool
  | nan => true
  | _ => false

/-- IEEE negation. -/
def neg : FVal → FVal
  | nan => nan
  | pinf => ninf
  | ninf => pinf
  | fin a => fin (-a)

/-- IEEE addition (infinities of opposite sign give NaN). -/
def add : FVal → FVal → FVal
  | nan, _ => nan
  | _, nan => nan
  | pinf, ninf => nan
  | ninf, pinf => nan
  | pinf, _ => pinf
  | ninf, _ => ninf
  | _, pinf => pinf
  | _, ninf => ninf
  | fin a, fin b => fin (a + b)

/-- IEEE subtraction. -/
def sub (a b : FVal) : FVal := add a (neg b)

/-- IEEE multiplication (infinity times zero gives NaN). -/
def mul : FVal → FVal → FVal
  | nan, _ => nan
  | _, nan => nan
  | pinf, pinf => pinf
  | pinf, ninf => ninf
  | ninf, pinf => ninf
  | ninf, ninf => pinf
  | pinf, fin b => if b > 0 then pinf else if b < 0 then ninf else nan
  | ninf, fin b => if b > 0 then ninf else if b < 0 then pinf else nan
  | fin a, pinf => if a > 0 then pinf else if a < 0 then ninf else nan
  | fin a, ninf => if a > 0 then ninf else if a < 0 then pinf else nan
  | fin a, fin b => fin (a * b)

/-- numpy division: `0/0` is NaN, `x/0` is a signed infinity for `x ≠ 0`,
`inf/inf` is NaN, a finite value divided by an infinity is 0. -/
def div : FVal → FVal → FVal
  | nan, _ => nan
  | _, nan => nan
  | pinf, pinf => nan
  | pinf, ninf => nan
  | ninf, pinf => nan
  | ninf, ninf => nan
  | pinf, fin b => if b < 0 then ninf else pinf
  | ninf, fin b => if b < 0 then pinf else ninf
  | fin _, pinf => fin 0
  | fin _, ninf => fin 0
  | fin a, fin b =>
      if b = 0 then (if a > 0 then pinf else if a < 0 then ninf else nan)
      else fin (a / b)

/-- IEEE absolute value. -/
def fabs : FVal → FVal
  | nan => nan
  | pinf => pinf
  | ninf => pinf
  | fin a => fin |a|

/-- Python builtin `min a b`: starts from `a` and replaces it by `b` only
when `b < a`, hence `min(1.0, NaN) = 1.0` while `min(NaN, 1.0) = NaN`. -/
def pymin (a b : FVal) : FVal := if lt b a then b else a

/-- Python builtin `max a b`: starts from `a` and replaces it by `b` only
when `b > a`. -/
def pymax (a b : FVal) : FVal := if lt a b then b else a

/-- Square root lifted to `FVal` from a rational square-root model
(numpy: square root of a negative value or of `-inf` is NaN). -/
def fsqrt (sqrt : ℚ → ℚ) : FVal → FVal
  | nan => nan
  | pinf => pinf
  | ninf => nan
  | fin a => if a < 0 then nan else fin (sqrt a)

end FVal

/-- A concrete rational square-root model: exact on rationals whose
numerator and denominator (in lowest terms) are perfect squares, in
particular `ratSqrt 0 = 0`.  All concrete series analysed in this file
only ever take the square root of 0. -/
def ratSqrt (q : ℚ) : ℚ := (Nat.sqrt q.num.toNat : ℚ) / (Nat.sqrt q.den : ℚ)

/-- A pandas Series of floating point values. -/
abbrev Series := List FVal

namespace Series

/-- Sum of a list of values (pandas sums left to right from 0). -/
def sumF (xs : Series) : FVal := xs.foldl FVal.add (FVal.fin 0)

/-- pandas `Series.diff()`: first entry NaN, then successive differences. -/
def diffS : Series → Series
  | [] => []
  | x :: rest => FVal.nan :: List.zipWith FVal.sub rest (x :: rest)

/-- pandas `Series.shift()`: first entry NaN, remaining entries moved one
position later (the last entry is dropped). -/
def shiftS : Series → Series
  | [] => []
  | x :: rest => FVal.nan :: (x :: rest).dropLast

/-- pandas `s.where(cond(s), other)`: keep entries satisfying the
(element-wise) condition, replace the rest by `other`.  A NaN entry fails
every comparison and is therefore replaced. -/
def whereS (cond : FVal → Bool) (other : FVal) (xs : Series) : Series :=
  xs.map (fun v => if cond v then v else other)

/-- The trailing window of length `w` ending at index `i` (assumes
`w ≤ i+1 ≤ xs.length`). -/
def windowAt (w i : ℕ) (xs : Series) : Series :=
  (xs.take (i + 1)).drop (i + 1 - w)

/-- Generic rolling application with pandas semantics
(`min_periods = w`): NaN until the window is full, NaN whenever the full
window contains a NaN, otherwise `f` of the window. -/
def rollingApply (w : ℕ) (f : Series → FVal) (xs : Series) : Series :=
  (List.range xs.length).map (fun i =>
    if i + 1 < w then FVal.nan
    else
      let win := windowAt w i xs
      if win.any FVal.isNan then FVal.nan else f win)

/-- pandas `rolling(w).mean()`. -/
def rollingMean (w : ℕ) (xs : Series) : Series :=
  rollingApply w (fun win => (sumF win).div (FVal.fin w)) xs

/-- Minimum of a nonempty NaN-free window. -/
def minW : Series → FVal
  | [] => FVal.nan
  | x :: rest => rest.foldl FVal.pymin x

/-- Maximum of a nonempty NaN-free window. -/
def maxW : Series → FVal
  | [] => FVal.nan
  | x :: rest => rest.foldl FVal.pymax x

/-- pandas `rolling(w).min()`. -/
def rollingMin (w : ℕ) (xs : Series) : Series := rollingApply w minW xs

/-- pandas `rolling(w).max()`. -/
def rollingMax (w : ℕ) (xs : Series) : Series := rollingApply w maxW xs

/-- Sample variance (`ddof = 1`) of a NaN-free window. -/
def varW (win : Series) : FVal :=
  let m := (sumF win).div (FVal.fin win.length)
  let sq := sumF (win.map (fun x => (x.sub m).mul (x.sub m)))
  sq.div (FVal.fin ((win.length : ℚ) - 1))

/-- pandas `rolling(w).std()` (sample standard deviation, `ddof = 1`),
factored as variance followed by a point-wise square root. -/
def rollingStd (sqrt : ℚ → ℚ) (w : ℕ) (xs : Series) : Series :=
  (rollingApply w varW xs).map (FVal.fsqrt sqrt)

/-- pandas `Series.mean()` (skips NaN; NaN when no valid entry exists). -/
def seriesMean (xs : Series) : FVal :=
  let v := xs.filter (fun x => !x.isNan)
  if v.isEmpty then FVal.nan else (sumF v).div (FVal.fin v.length)

/-- pandas `Series.std()` (skips NaN, `ddof = 1`; NaN with at most one
valid entry). -/
def seriesStd (sqrt : ℚ → ℚ) (xs : Series) : FVal :=
  let v := xs.filter (fun x => !x.isNan)
  if v.length ≤ 1 then FVal.nan
  else FVal.fsqrt sqrt (varW v)

/-- pandas `ewm(span=s).mean()` with the defaults `adjust=True`,
`ignore_na=False`: weighted mean with weights `(1-α)^(t-i)` over the
valid (non-NaN) entries, `α = 2/(s+1)`; NaN while no valid entry has
been seen. -/
def ewmGo (beta : ℚ) (num : FVal) (den : ℚ) : Series → Series
  | [] => []
  | x :: rest =>
      let num1 := (num.mul (FVal.fin beta)).add (if x.isNan then FVal.fin 0 else x)
      let den1 := beta * den + (if x.isNan then 0 else 1)
      (if den1 = 0 then FVal.nan else num1.div (FVal.fin den1)) :: ewmGo beta num1 den1 rest

/-- pandas `ewm(span=s).mean()`; see `ewmGo`. -/
def ewmMean (span : ℕ) (xs : Series) : Series :=
  ewmGo (1 - 2 / ((span : ℚ) + 1)) (FVal.fin 0) 0 xs

/-- Row-wise maximum of three aligned series with pandas
`max(axis=1)` semantics (NaN entries are skipped; all-NaN rows give NaN). -/
def maxSkipna3 (a b c : FVal) : FVal :=
  let v := [a, b, c].filter (fun x => !x.isNan)
  match v with
  | [] => FVal.nan
  | x :: rest => rest.foldl FVal.pymax x

/-- Element-wise application over three aligned series. -/
def zip3With (f : FVal → FVal → FVal → FVal) : Series → Series → Series → Series
  | a :: as1, b :: bs, c :: cs => f a b c :: zip3With f as1 bs cs
  | _, _, _ => []

/-- `Series.iloc[-1]` (last entry; NaN on an empty series, which never
occurs in the uses below). -/
def lastS (xs : Series) : FVal := xs.getLast?.getD FVal.nan

/-- `Series.iloc[0]` / `values[0]`. -/
def headS (xs : Series) : FVal := xs.headD FVal.nan

/-- Multiply every entry by a scalar on the left (`k * series`). -/
def scale (k : FVal) (xs : Series) : Series := xs.map (fun v => k.mul v)

end Series

end Predticker

namespace Predticker

open Series

/-- Ordinary least squares slope of a series against the time index
`0..n-1` (`sklearn.LinearRegression` coefficient; `_compute_slope` in
`backtest.py` additionally guards `len < 2` with slope 0, which is also
used here — `compute_enhanced_features` only calls it with windows of
length at least 2). -/
def olsSlope (xs : Series) : FVal :=
  let n := xs.length
  if n < 2 then FVal.fin 0
  else
    let tbar : ℚ := ((n : ℚ) - 1) / 2
    let ybar := (sumF xs).div (FVal.fin (n : ℚ))
    let num := sumF (List.zipWith
      (fun (i : ℕ) y => (FVal.fin ((i : ℚ) - tbar)).mul (y.sub ybar))
      (List.range n) xs)
    let den : ℚ := (((List.range n).map (fun i => ((i : ℚ) - tbar) ^ 2)).sum)
    num.div (FVal.fin den)

/-- An OHLCV DataFrame: aligned High/Low/Close/Volume columns of finite
market data (the Open column and the timestamp index are never read by
the core; bar positions serve as times). -/
structure OHLCV where
  high : List ℚ
  low : List ℚ
  close : List ℚ
  volume : List ℚ

namespace OHLCV

/-- The Close column as a float series. -/
def closeS (df : OHLCV) : Series := df.close.map FVal.fin

/-- The High column as a float series. -/
def highS (df : OHLCV) : Series := df.high.map FVal.fin

/-- The Low column as a float series. -/
def lowS (df : OHLCV) : Series := df.low.map FVal.fin

/-- The Volume column as a float series. -/
def volumeS (df : OHLCV) : Series := df.volume.map FVal.fin

end OHLCV

/-- Embeds `calculate_rsi` of `enhanced_predictor.py`: rolling means of
positive and negated negative deltas, `100 - 100/(1+RS)`.  There is no
special-casing of a zero loss: `0/0` propagates as NaN into the RSI. -/
def calculate_rsi (df : OHLCV) (period : ℕ) : Series :=
  let delta := diffS df.closeS
  let gain := rollingMean period (whereS (fun d => FVal.lt (FVal.fin 0) d) (FVal.fin 0) delta)
  let loss := rollingMean period ((whereS (fun d => FVal.lt d (FVal.fin 0)) (FVal.fin 0) delta).map FVal.neg)
  let rs := List.zipWith FVal.div gain loss
  rs.map (fun r => (FVal.fin 100).sub ((FVal.fin 100).div ((FVal.fin 1).add r)))

/-- Embeds `calculate_macd` (EMA 12 minus EMA 26; EMA 9 of that as the
signal line; difference as histogram). -/
def calculate_macd (df : OHLCV) : Series × Series × Series :=
  let emaFast := ewmMean 12 df.closeS
  let emaSlow := ewmMean 26 df.closeS
  let macd := List.zipWith FVal.sub emaFast emaSlow
  let signalLine := ewmMean 9 macd
  let histogram := List.zipWith FVal.sub macd signalLine
  (macd, signalLine, histogram)

/-- Embeds `calculate_bollinger_bands` (period 20, 2 standard
deviations): returns (upper, middle, lower). -/
def calculate_bollinger_bands (sqrt : ℚ → ℚ) (df : OHLCV) : Series × Series × Series :=
  let sma := rollingMean 20 df.closeS
  let std := rollingStd sqrt 20 df.closeS
  let upper := List.zipWith FVal.add sma (std.map (fun v => v.mul (FVal.fin 2)))
  let lower := List.zipWith FVal.sub sma (std.map (fun v => v.mul (FVal.fin 2)))
  (upper, sma, lower)

/-- Embeds `calculate_atr`: rolling mean of the true range, which is the
row-wise (NaN-skipping) maximum of high-low, |high-prev close| and
|low-prev close|. -/
def calculate_atr (df : OHLCV) (period : ℕ) : Series :=
  let highLow := List.zipWith FVal.sub df.highS df.lowS
  let highClose := (List.zipWith FVal.sub df.highS (shiftS df.closeS)).map FVal.fabs
  let lowClose := (List.zipWith FVal.sub df.lowS (shiftS df.closeS)).map FVal.fabs
  let trueRange := zip3With maxSkipna3 highLow highClose lowClose
  rollingMean period trueRange

/-- Embeds `calculate_adx` of `enhanced_predictor.py` (rolling-mean
smoothing; the `where` conditions are false on NaN, so the first
directional-movement entries are 0, not NaN). -/
def calculate_adx (df : OHLCV) (period : ℕ) : Series :=
  let highDiff := diffS df.highS
  let lowDiff := (diffS df.lowS).map FVal.neg
  let plusDm := List.zipWith
    (fun hd ld => if FVal.lt ld hd && FVal.lt (FVal.fin 0) hd then hd else FVal.fin 0)
    highDiff lowDiff
  let minusDm := List.zipWith
    (fun hd ld => if FVal.lt hd ld && FVal.lt (FVal.fin 0) ld then ld else FVal.fin 0)
    highDiff lowDiff
  let tr := calculate_atr df period
  let plusDi := scale (FVal.fin 100) (List.zipWith FVal.div (rollingMean period plusDm) tr)
  let minusDi := scale (FVal.fin 100) (List.zipWith FVal.div (rollingMean period minusDm) tr)
  let diDiff := (List.zipWith FVal.sub plusDi minusDi).map FVal.fabs
  let diSum := List.zipWith FVal.add plusDi minusDi
  let dx := scale (FVal.fin 100) (List.zipWith FVal.div diDiff diSum)
  rollingMean period dx

/-- Embeds `calculate_stochastic` (14, 3, 3): smoothed %K and %D lines. -/
def calculate_stochastic (df : OHLCV) : Series × Series :=
  let lowMin := rollingMin 14 df.lowS
  let highMax := rollingMax 14 df.highS
  let kPercent := scale (FVal.fin 100)
    (List.zipWith FVal.div (List.zipWith FVal.sub df.closeS lowMin)
      (List.zipWith FVal.sub highMax lowMin))
  let kSmooth := rollingMean 3 kPercent
  let dLine := rollingMean 3 kSmooth
  (kSmooth, dLine)

/-- The 20-entry feature snapshot returned by
`compute_enhanced_features`. -/
structure Features where
  slope : FVal
  last_return : FVal
  volatility : FVal
  sma_20 : FVal
  sma_50 : FVal
  ema_12 : FVal
  ema_26 : FVal
  price : FVal
  current_position : FVal
  rsi : FVal
  macd : FVal
  macd_signal : FVal
  macd_histogram : FVal
  bb_position : FVal
  atr : FVal
  atr_percent : FVal
  adx : FVal
  k_stoch : FVal
  d_stoch : FVal
  avg_volume : FVal
deriving DecidableEq

/-- Embeds `compute_enhanced_features` of `enhanced_predictor.py`.  The
Python conditionals `x if c != 0 else y` are reproduced with IEEE `!=`
(true on NaN). -/
def compute_enhanced_features (sqrt : ℚ → ℚ) (df : OHLCV) : Features :=
  let prices := df.closeS
  let slope := olsSlope prices
  let lastReturn :=
    if 2 ≤ prices.length then ((lastS prices).div (headS prices)).sub (FVal.fin 1)
    else FVal.fin 0
  let volatility := seriesStd sqrt prices
  let sma20 := lastS (rollingMean 20 prices)
  let sma50 := lastS (rollingMean 50 prices)
  let ema12 := lastS (ewmMean 12 prices)
  let ema26 := lastS (ewmMean 26 prices)
  let price := lastS prices
  let currentPosition :=
    if FVal.eqv sma50 (FVal.fin 0) then FVal.fin 0
    else (price.sub sma50).div sma50
  let rsi := lastS (calculate_rsi df 14)
  let macdTriple := calculate_macd df
  let bb := calculate_bollinger_bands sqrt df
  let upperLast := lastS bb.1
  let lowerLast := lastS bb.2.2
  let bbWidth := upperLast.sub lowerLast
  let bbPosition :=
    if FVal.eqv bbWidth (FVal.fin 0) then FVal.fin (1/2)
    else (price.sub lowerLast).div bbWidth
  let atr := lastS (calculate_atr df 14)
  let atrPercent :=
    if FVal.eqv price (FVal.fin 0) then FVal.fin 0
    else (atr.div price).mul (FVal.fin 100)
  let adx := lastS (calculate_adx df 14)
  let stoch := calculate_stochastic df
  { slope := slope
    last_return := lastReturn
    volatility := volatility
    sma_20 := sma20
    sma_50 := sma50
    ema_12 := ema12
    ema_26 := ema26
    price := price
    current_position := currentPosition
    rsi := rsi
    macd := lastS macdTriple.1
    macd_signal := lastS macdTriple.2.1
    macd_histogram := lastS macdTriple.2.2
    bb_position := bbPosition
    atr := atr
    atr_percent := atrPercent
    adx := adx
    k_stoch := lastS stoch.1
    d_stoch := lastS stoch.2
    avg_volume := seriesMean df.volumeS }

end Predticker

namespace Predticker

/-- Direction of a prediction (Python strings "Up"/"Down"; the adaptive
module uses "LONG"/"SHORT" with the same meaning). -/
inductive Dir where
  | up : Dir
  | down : Dir
deriving DecidableEq

/-- Volatility regime returned by `detect_volatility_regime`
(strings 'low' / 'normal' / 'high'). -/
inductive VolRegime where
  | low : VolRegime
  | normal : VolRegime
  | high : VolRegime
deriving DecidableEq

/-- One human-readable signal string, abstracted to a tag carrying the
values interpolated into the Python f-string (equal tags with equal
payloads render to equal strings). -/
inductive Signal where
  | posSlope | negSlope
  | smaUp | smaDown
  | emaUp | emaDown
  | rsiOversold | rsiMildBuy | rsiOverbought | rsiNeutral
  | macdBull | macdBear
  | bbSupport | bbResist
  | bbRange : FVal → Signal
  | lowVol | highVol
  | strongTrend : FVal → Signal
  | moderateTrend : FVal → Signal
  | weakTrend : FVal → Signal
  | stochOversold | stochOverbought
  | stochBullCross | stochBearCross
  | usingAdaptive : VolRegime → Signal
deriving DecidableEq

/-- The per-category sub-scores of `enhanced_prediction` (the Python code
stores them in a dict called `weights`; they are the normalized category
scores, not the fixed category weights). -/
structure SubScores where
  trend : FVal
  momentum : FVal
  volatility : FVal
  trend_strength : FVal
  stochastic : FVal
deriving DecidableEq

/-- The trend sub-score: fraction of {slope>0, SMA20>SMA50, EMA12>EMA26}
that hold (comparisons are IEEE, so false on NaN). -/
def trendScoreQ (f : Features) : ℚ :=
  (((if FVal.lt (FVal.fin 0) f.slope then 1 else 0) +
    (if FVal.lt f.sma_50 f.sma_20 then 1 else 0) +
    (if FVal.lt f.ema_26 f.ema_12 then 1 else 0) : ℚ)) / 3

/-- The raw momentum score: RSI contribution plus MACD contribution. -/
def momentumRawQ (f : Features) : ℚ :=
  (if FVal.lt f.rsi (FVal.fin 30) then 2
   else if FVal.lt f.rsi (FVal.fin 50) then 1
   else if FVal.lt (FVal.fin 70) f.rsi then -2
   else 0) +
  (if FVal.lt (FVal.fin 0) f.macd_histogram && FVal.lt f.macd_signal f.macd then 1
   else if FVal.lt f.macd_histogram (FVal.fin 0) && FVal.lt f.macd f.macd_signal then -1
   else 0)

/-- The momentum sub-score `max(0, min(1, (raw+2)/4))` (all operands are
finite Python floats, so the clamp is the rational clamp). -/
def momentumScoreQ (f : Features) : ℚ := max 0 (min 1 ((momentumRawQ f + 2) / 4))

/-- The raw volatility score: Bollinger position plus ATR-percent
contribution. -/
def volatilityRawQ (f : Features) : ℚ :=
  (if FVal.lt f.bb_position (FVal.fin (1/5)) then 1
   else if FVal.lt (FVal.fin (4/5)) f.bb_position then -1
   else 0) +
  (if FVal.lt f.atr_percent (FVal.fin 1) then 1
   else if FVal.lt (FVal.fin 3) f.atr_percent then -1
   else 0)

/-- The volatility sub-score `max(0, min(1, (raw+1)/2))`. -/
def volatilityScoreQ (f : Features) : ℚ := max 0 (min 1 ((volatilityRawQ f + 1) / 2))

/-- The trend-strength sub-score `max(0, min(1, adx/40.0))`, evaluated
with Python `min`/`max` argument order (`min(1, NaN) = 1`, so a NaN ADX
yields sub-score 1). -/
def trendStrengthScore (f : Features) : FVal :=
  FVal.pymax (FVal.fin 0) (FVal.pymin (FVal.fin 1) (f.adx.div (FVal.fin 40)))

/-- The raw stochastic score: %K extreme plus %K-versus-%D crossover. -/
def stochRawQ (f : Features) : ℚ :=
  (if FVal.lt f.k_stoch (FVal.fin 20) then 1
   else if FVal.lt (FVal.fin 80) f.k_stoch then -1
   else 0) +
  (if FVal.lt f.d_stoch f.k_stoch then 1/2
   else if FVal.lt f.k_stoch f.d_stoch then -1/2
   else 0)

/-- The stochastic sub-score `max(0, min(1, (raw+1)/2))`. -/
def stochScoreQ (f : Features) : ℚ := max 0 (min 1 ((stochRawQ f + 1) / 2))

/-- The five sub-scores of `enhanced_prediction` (and identically of
`enhanced_prediction_adaptive`). -/
def subScores (f : Features) : SubScores :=
  { trend := FVal.fin (trendScoreQ f)
    momentum := FVal.fin (momentumScoreQ f)
    volatility := FVal.fin (volatilityScoreQ f)
    trend_strength := trendStrengthScore f
    stochastic := FVal.fin (stochScoreQ f) }

/-- The ordered signal list emitted while scoring (identical structure in
`enhanced_prediction` and `enhanced_prediction_adaptive`). -/
def scoreSignals (f : Features) : List Signal :=
  (if FVal.lt (FVal.fin 0) f.slope then [Signal.posSlope] else [Signal.negSlope]) ++
  (if FVal.lt f.sma_50 f.sma_20 then [Signal.smaUp] else [Signal.smaDown]) ++
  (if FVal.lt f.ema_26 f.ema_12 then [Signal.emaUp] else [Signal.emaDown]) ++
  (if FVal.lt f.rsi (FVal.fin 30) then [Signal.rsiOversold]
   else if FVal.lt f.rsi (FVal.fin 50) then [Signal.rsiMildBuy]
   else if FVal.lt (FVal.fin 70) f.rsi then [Signal.rsiOverbought]
   else [Signal.rsiNeutral]) ++
  (if FVal.lt (FVal.fin 0) f.macd_histogram && FVal.lt f.macd_signal f.macd then [Signal.macdBull]
   else if FVal.lt f.macd_histogram (FVal.fin 0) && FVal.lt f.macd f.macd_signal then [Signal.macdBear]
   else []) ++
  (if FVal.lt f.bb_position (FVal.fin (1/5)) then [Signal.bbSupport]
   else if FVal.lt (FVal.fin (4/5)) f.bb_position then [Signal.bbResist]
   else [Signal.bbRange f.bb_position]) ++
  (if FVal.lt f.atr_percent (FVal.fin 1) then [Signal.lowVol]
   else if FVal.lt (FVal.fin 3) f.atr_percent then [Signal.highVol]
   else []) ++
  (if FVal.lt (FVal.fin 25) f.adx then [Signal.strongTrend f.adx]
   else if FVal.lt (FVal.fin 20) f.adx then [Signal.moderateTrend f.adx]
   else [Signal.weakTrend f.adx]) ++
  (if FVal.lt f.k_stoch (FVal.fin 20) then [Signal.stochOversold]
   else if FVal.lt (FVal.fin 80) f.k_stoch then [Signal.stochOverbought]
   else []) ++
  (if FVal.lt f.d_stoch f.k_stoch then [Signal.stochBullCross]
   else if FVal.lt f.k_stoch f.d_stoch then [Signal.stochBearCross]
   else [])

/-- The result record of `enhanced_prediction` (`weights` holds the
sub-scores, mirroring the Python dict of the same name; the trailing
copies of four indicator values are also mirrored). -/
structure Pred where
  prediction : Dir
  score : FVal
  confidence : FVal
  signals : List Signal
  weights : SubScores
  rsi : FVal
  adx : FVal
  macd_histogram : FVal
  bb_position : FVal
deriving DecidableEq

/-- Embeds `enhanced_prediction` of `enhanced_predictor.py`: weighted
sum of the five sub-scores with the fixed weights
0.20/0.25/0.20/0.20/0.15, direction Up iff the score exceeds 0.5,
confidence `|score - 0.5| * 2 * 100`. -/
def enhanced_prediction (f : Features) : Pred :=
  let w := subScores f
  let finalScore :=
    ((((w.trend.mul (FVal.fin (20/100))).add
       (w.momentum.mul (FVal.fin (25/100)))).add
       (w.volatility.mul (FVal.fin (20/100)))).add
       (w.trend_strength.mul (FVal.fin (20/100)))).add
       (w.stochastic.mul (FVal.fin (15/100)))
  { prediction := if FVal.lt (FVal.fin (1/2)) finalScore then Dir.up else Dir.down
    score := finalScore
    confidence := ((finalScore.sub (FVal.fin (1/2))).fabs.mul (FVal.fin 2)).mul (FVal.fin 100)
    signals := scoreSignals f
    weights := w
    rsi := f.rsi
    adx := f.adx
    macd_histogram := f.macd_histogram
    bb_position := f.bb_position }

end Predticker

namespace Predticker

/-- A category-weight distribution over the five indicator categories. -/
structure CatW where
  trend : ℚ
  momentum : ℚ
  volatility : ℚ
  trend_strength : ℚ
  stochastic : ℚ
deriving DecidableEq

/-- The static default weights `{trend 0.20, momentum 0.25,
volatility 0.20, trend_strength 0.20, stochastic 0.15}` returned by
`_default_weights` in both `regime_weights.py` and
`adaptive_weights.py`. -/
def defaultWeights : CatW :=
  { trend := 20/100, momentum := 25/100, volatility := 20/100
    trend_strength := 20/100, stochastic := 15/100 }

/-- Embeds `detect_volatility_regime` of
`enhanced_predictor_adaptive.py` (the snapshot always carries
`atr_percent`, so the `.get` default 1.5 never applies). -/
def detect_volatility_regime (f : Features) : VolRegime :=
  if FVal.lt f.atr_percent (FVal.fin 1) then VolRegime.low
  else if FVal.lt (FVal.fin (5/2)) f.atr_percent then VolRegime.high
  else VolRegime.normal

/-- The result record of `enhanced_prediction_adaptive` (here `weights`
is the dict of category weights the call reports back and `components`
holds the five normalized sub-scores). -/
structure PredA where
  prediction : Dir
  score : FVal
  confidence : FVal
  signals : List Signal
  weights : CatW
  components : SubScores
deriving DecidableEq

/-- Embeds `enhanced_prediction_adaptive` of
`enhanced_predictor_adaptive.py`.  The optimizer object is abstracted to
its duck-typed interface, a `get_adaptive_weights` function
`Features → CatW` (both `AdaptiveWeightOptimizer` and
`RegimeAdaptiveWeights` are used here by callers in the repository).
When adaptive weights are in use the only signal that differs from the
static path is the leading `usingAdaptive` tag; afterwards the weight
dicts are complete, so every `weights.get(k, default)` returns the
stored entry, and the `and weights` truthiness test is always true (the
static path stores a non-empty dict of zeros, which is also what the
returned `weights` field then reports). -/
def enhanced_prediction_adaptive (f : Features)
    (optimizer : Option (Features → CatW)) (use_adaptive_weights : Bool) : PredA :=
  let useAdaptive := use_adaptive_weights && optimizer.isSome
  let w : CatW :=
    if useAdaptive then (optimizer.getD (fun _ => ⟨0, 0, 0, 0, 0⟩)) f
    else ⟨0, 0, 0, 0, 0⟩
  let headSignals : List Signal :=
    if useAdaptive then [Signal.usingAdaptive (detect_volatility_regime f)] else []
  let comps := subScores f
  let finalScore :=
    if useAdaptive then
      ((((comps.trend.mul (FVal.fin w.trend)).add
         (comps.momentum.mul (FVal.fin w.momentum))).add
         (comps.volatility.mul (FVal.fin w.volatility))).add
         (comps.trend_strength.mul (FVal.fin w.trend_strength))).add
         (comps.stochastic.mul (FVal.fin w.stochastic))
    else
      ((((comps.trend.mul (FVal.fin (20/100))).add
         (comps.momentum.mul (FVal.fin (25/100)))).add
         (comps.volatility.mul (FVal.fin (20/100)))).add
         (comps.trend_strength.mul (FVal.fin (20/100)))).add
         (comps.stochastic.mul (FVal.fin (15/100)))
  { prediction := if FVal.lt (FVal.fin (1/2)) finalScore then Dir.up else Dir.down
    score := finalScore
    confidence := (finalScore.sub (FVal.fin (1/2))).fabs.mul (FVal.fin 200)
    signals := headSignals ++ scoreSignals f
    weights := w
    components := comps }

/-- Embeds the untrained-versus-trained dispatch of
`AdaptiveWeightOptimizer.get_adaptive_weights` in `adaptive_weights.py`:
an untrained optimizer falls back to `_default_weights`; the trained
path (feature scaling and random-forest feature importances, lines
124-137) is abstracted to an arbitrary function field. -/
structure AdaptiveWeightOptimizer where
  is_trained : Bool
  modelWeights : Features → CatW

/-- The `get_adaptive_weights` method of `AdaptiveWeightOptimizer`. -/
def AdaptiveWeightOptimizer.get_adaptive_weights
    (o : AdaptiveWeightOptimizer) (f : Features) : CatW :=
  if o.is_trained then o.modelWeights f else defaultWeights

/-- Candidate names of `generate_weight_combinations` in
`regime_weights.py`. -/
inductive CName where
  | standard | momentum_heavy | trend_heavy | volatility_aware | adx_focused | balanced
deriving DecidableEq

/-- A candidate weight combination (weights plus name). -/
structure Combo where
  w : CatW
  name : CName
deriving DecidableEq

/-- Embeds `generate_weight_combinations`: the fixed catalogue of six
candidate distributions. -/
def generate_weight_combinations : List Combo :=
  [ ⟨⟨20/100, 25/100, 20/100, 20/100, 15/100⟩, CName.standard⟩,
    ⟨⟨15/100, 40/100, 15/100, 20/100, 10/100⟩, CName.momentum_heavy⟩,
    ⟨⟨35/100, 15/100, 20/100, 25/100, 5/100⟩, CName.trend_heavy⟩,
    ⟨⟨15/100, 20/100, 35/100, 15/100, 15/100⟩, CName.volatility_aware⟩,
    ⟨⟨15/100, 20/100, 15/100, 40/100, 10/100⟩, CName.adx_focused⟩,
    ⟨⟨20/100, 30/100, 25/100, 15/100, 10/100⟩, CName.balanced⟩ ]

/-- The six regime labels returned by `detect_market_regime`. -/
inductive Regime where
  | trendingStrongHighVol | trendingStrongLowVol
  | trendingWeakHighVol | trendingWeakLowVol
  | rangingHighVol | rangingLowVol
deriving DecidableEq

/-- Embeds `detect_market_regime` of `regime_weights.py` (snapshots are
complete, so the `.get` defaults never apply; NaN fails both thresholds
and lands in the ranging/low-vol branches). -/
def detect_market_regime (f : Features) : Regime :=
  if FVal.lt (FVal.fin 30) f.adx then
    (if FVal.lt (FVal.fin (5/2)) f.atr_percent then Regime.trendingStrongHighVol
     else Regime.trendingStrongLowVol)
  else if FVal.lt (FVal.fin 20) f.adx then
    (if FVal.lt (FVal.fin (5/2)) f.atr_percent then Regime.trendingWeakHighVol
     else Regime.trendingWeakLowVol)
  else
    (if FVal.lt (FVal.fin (5/2)) f.atr_percent then Regime.rangingHighVol
     else Regime.rangingLowVol)

/-- The simplified per-sample score computed inside
`test_weight_combination` (lines 152-185 of `regime_weights.py`): trend
uses only slope and SMA (divided by 3), momentum collapses RSI to
{1, 0.5, 0}, volatility rewards mid-band Bollinger position,
trend strength is `min(adx/40.0, 1.0)` (Python argument order: a NaN ADX
propagates), stochastic collapses %K to {1, 0.5, 0}. -/
def simplifiedScore (w : CatW) (f : Features) : FVal :=
  let trendNormalized : ℚ :=
    (((if FVal.lt (FVal.fin 0) f.slope then 1 else 0) +
      (if FVal.lt f.sma_50 f.sma_20 then 1 else 0) : ℚ)) / 3
  let momentumNormalized : ℚ :=
    if FVal.lt f.rsi (FVal.fin 30) then 1
    else if FVal.lt f.rsi (FVal.fin 50) then 1/2
    else if FVal.lt (FVal.fin 70) f.rsi then 0
    else 1/2
  let volatilityNormalized : FVal :=
    FVal.pymax (FVal.fin 0) (FVal.pymin (FVal.fin 1)
      ((FVal.fin 1).sub (((f.bb_position.sub (FVal.fin (1/2))).fabs).mul (FVal.fin 2))))
  let trendStrengthNormalized : FVal := FVal.pymin (f.adx.div (FVal.fin 40)) (FVal.fin 1)
  let stochNormalized : ℚ :=
    if FVal.lt (FVal.fin 20) f.k_stoch && FVal.lt f.k_stoch (FVal.fin 80) then 1/2
    else if FVal.lt f.k_stoch (FVal.fin 20) then 1
    else 0
  ((((FVal.fin (trendNormalized * w.trend)).add
     (FVal.fin (momentumNormalized * w.momentum))).add
     (volatilityNormalized.mul (FVal.fin w.volatility))).add
     (trendStrengthNormalized.mul (FVal.fin w.trend_strength))).add
     (FVal.fin (stochNormalized * w.stochastic))

/-- The per-sample direction call of `test_weight_combination`:
1 when the simplified score exceeds 0.5, else 0. -/
def simplifiedPredict (w : CatW) (f : Features) : ℕ :=
  if FVal.lt (FVal.fin (1/2)) (simplifiedScore w f) then 1 else 0

/-- Embeds `test_weight_combination`: the actual directions are the
`actual` entries (0/1) of the prediction dicts; the loop body cannot
raise, so the `except: continue` path is dead; accuracy is
`correct/len * 100`, or 0 on mismatched lengths or an empty corpus. -/
def test_weight_combination (w : CatW)
    (features_list : List Features) (predictions_list : List ℕ) : ℚ :=
  if features_list.length ≠ predictions_list.length then 0
  else
    let correctCount := (List.zip features_list predictions_list).foldl
      (fun acc fa => if simplifiedPredict w fa.1 = fa.2 then acc + 1 else acc) (0 : ℕ)
    if 0 < predictions_list.length then
      ((correctCount : ℚ) / (predictions_list.length : ℚ)) * 100
    else 0

/-- A tested candidate: combination plus its measured accuracy (the
Python code stores the accuracy inside the combo dict). -/
structure ComboA where
  combo : Combo
  accuracy : ℚ
deriving DecidableEq

/-- The six candidates, each paired with its accuracy on the corpus. -/
def trainScored (fs : List Features) (acts : List ℕ) : List ComboA :=
  generate_weight_combinations.map (fun c => ⟨c, test_weight_combination c.w fs acts⟩)

/-- Stable descending insertion of a candidate into an
accuracy-descending list: `a` moves ahead only of strictly
lower-accuracy entries, so equal-accuracy entries keep their order. -/
def insertDesc (a : ComboA) : List ComboA → List ComboA
  | [] => [a]
  | b :: rest => if b.accuracy < a.accuracy then a :: b :: rest else b :: insertDesc a rest

/-- Stable descending insertion sort by accuracy.  Python
`sorted(key=accuracy, reverse=True)` is the stable descending sort, and
any two stable descending sorts agree, so this is extensionally the
`best_combos` list of `train`. -/
def sortByAccDesc (l : List ComboA) : List ComboA :=
  l.foldl (fun acc c => insertDesc c acc) []

/-- The candidates sorted by accuracy in decreasing order (the
`best_combos` list of `train`). -/
def trainSorted (fs : List Features) (acts : List ℕ) : List ComboA :=
  sortByAccDesc (trainScored fs acts)

/-- The `regime_weights`/`is_trained` state of `RegimeAdaptiveWeights`
(the four bucket keys written by `train`; `tested_combinations` is
write-only metadata and is not modelled). -/
structure RegimeState where
  trending_strong : Option ComboA
  trending_weak : Option ComboA
  ranging : Option ComboA
  ranging_high : Option ComboA
  is_trained : Bool

/-- The state produced by `__init__` (empty buckets, untrained). -/
def initialRegimeState : RegimeState := ⟨none, none, none, none, false⟩

/-- Embeds the bucket assignment of `RegimeAdaptiveWeights.train`
(lines 236-241 and 257 of `regime_weights.py`). -/
def train (fs : List Features) (acts : List ℕ) : RegimeState :=
  let best := trainSorted fs acts
  { trending_strong := best[0]?
    trending_weak := best[0]?
    ranging := if 2 < best.length then best[2]? else best[0]?
    ranging_high := if 2 < best.length then best[2]? else best[0]?
    is_trained := true }

/-- Embeds `RegimeAdaptiveWeights.get_adaptive_weights`: untrained
states fall back to the defaults; otherwise the detected regime label is
collapsed onto a bucket by the substring tests ('strong' before 'weak'
before 'high_vol'), an empty bucket falls back to the defaults, and the
stored combo dict is complete so the `.get` defaults never apply. -/
def RegimeState.get_adaptive_weights (st : RegimeState) (f : Features) : CatW :=
  if !st.is_trained then defaultWeights
  else
    let bucket : Option ComboA := match detect_market_regime f with
      | Regime.trendingStrongHighVol | Regime.trendingStrongLowVol => st.trending_strong
      | Regime.trendingWeakHighVol | Regime.trendingWeakLowVol => st.trending_weak
      | Regime.rangingHighVol => st.ranging_high
      | Regime.rangingLowVol => st.ranging
    match bucket with
    | none => defaultWeights
    | some c => c.combo.w

end Predticker

namespace Predticker

open Series

/-- The feature record of `compute_4h_features` in `backtest.py`. -/
structure Features4h where
  slope : FVal
  last_return : FVal
  volatility : FVal
  avg_volatility : FVal
deriving DecidableEq

/-- Embeds `compute_4h_features`: OLS slope (via `_compute_slope`, which
returns 0 for fewer than two bars), return over the window, sample
standard deviation of the closes, and the (NaN-skipping) mean of the
2-bar rolling standard deviation. -/
def compute_4h_features (sqrt : ℚ → ℚ) (closes : List ℚ) : Features4h :=
  let s : Series := closes.map FVal.fin
  { slope := olsSlope s
    last_return :=
      if 2 ≤ closes.length then ((lastS s).div (headS s)).sub (FVal.fin 1)
      else FVal.fin 0
    volatility := seriesStd sqrt s
    avg_volatility := seriesMean (rollingStd sqrt 2 s) }

/-- Embeds `rule_based_prediction_4h`: one point each for positive
slope, positive window return, and volatility below its rolling
average; Up on score at least 2. -/
def rule_based_prediction_4h (f : Features4h) : Dir × ℕ :=
  let score :=
    (if FVal.lt (FVal.fin 0) f.slope then 1 else 0) +
    (if FVal.lt (FVal.fin 0) f.last_return then 1 else 0) +
    (if FVal.lt f.volatility f.avg_volatility then 1 else 0)
  (if 2 ≤ score then Dir.up else Dir.down, score)

/-- LONG or SHORT position type. -/
inductive PosType where
  | long : PosType
  | short : PosType
deriving DecidableEq

/-- Exit reason of a completed backtest trade. -/
inductive ExitReason where
  | stopLoss : ExitReason
  | takeProfit : ExitReason
  | endOfPeriod : ExitReason
deriving DecidableEq

/-- An open backtest position: the Python loop keeps it in the local
variables `position`, `entry_price`, `stop_loss`, `take_profit`; the
index of the entry bar (implicit in the Python control flow) is carried
along to state the interval claims. -/
structure Position where
  ptype : PosType
  entry : ℚ
  stop_loss : ℚ
  take_profit : ℚ
  entryIdx : ℕ
deriving DecidableEq

/-- A completed trade record (Python dict keys Entry / Exit / Type /
PnL / PnL% / Reason / Date, where Date is the exit bar; the entry bar
index, implicit in the Python control flow, is carried as well). -/
structure Trade where
  entryPrice : ℚ
  exitPrice : ℚ
  ptype : PosType
  pnl : ℚ
  pnlPct : ℚ
  reason : ExitReason
  entryIdx : ℕ
  exitIdx : ℕ
deriving DecidableEq

/-- The mutable state of the `backtest_ticker` loop. -/
structure BState where
  position : Option Position
  trades : List Trade
  equity : ℚ
deriving DecidableEq

/-- Close the open position `p` at price `price` on bar `i`: append a
trade record and return to the flat state (common body of the four exit
branches and of the end-of-data close). -/
def closeTrade (p : Position) (price : ℚ) (i : ℕ) (reason : ExitReason)
    (s : BState) : BState :=
  let pnl : ℚ := match p.ptype with
    | PosType.long => price - p.entry
    | PosType.short => p.entry - price
  { position := none
    trades := s.trades ++ [⟨p.entry, price, p.ptype, pnl, pnl / p.entry * 100, reason, p.entryIdx, i⟩]
    equity := s.equity + pnl }

/-- The entry block of the loop body (`backtest.py` lines 134-147): only
from the flat state, LONG on Up with stop -2% / target +4%, SHORT on
Down with stop +5% / target -5%. -/
def entryStep (pred : Dir) (price : ℚ) (i : ℕ) (s : BState) : BState :=
  match s.position, pred with
  | none, Dir.up =>
      { s with position := some ⟨PosType.long, price, price * (98/100), price * (104/100), i⟩ }
  | none, Dir.down =>
      { s with position := some ⟨PosType.short, price, price * (105/100), price * (95/100), i⟩ }
  | _, _ => s

/-- The exit block of the loop body (`backtest.py` lines 149-214): a
LONG closes when the close is at or below the stop or at or above the
target, a SHORT with the inverted comparisons; in every case the trade
is recorded at the current close, not at the level that was breached. -/
def exitStep (price : ℚ) (i : ℕ) (s : BState) : BState :=
  match s.position with
  | none => s
  | some p =>
    match p.ptype with
    | PosType.long =>
        if price ≤ p.stop_loss then closeTrade p price i ExitReason.stopLoss s
        else if p.take_profit ≤ price then closeTrade p price i ExitReason.takeProfit s
        else s
    | PosType.short =>
        if p.stop_loss ≤ price then closeTrade p price i ExitReason.stopLoss s
        else if price ≤ p.take_profit then closeTrade p price i ExitReason.takeProfit s
        else s

/-- One iteration of the `backtest_ticker` loop at bar `i`: predict from
the window of the five preceding closes, then run the entry block
followed by the exit block.  The accuracy bookkeeping of lines 119-132
reads only `predictions` and never touches position, trades or equity,
so it is not modelled. -/
def barStep (sqrt : ℚ → ℚ) (closes : List ℚ) (s : BState) (i : ℕ) : BState :=
  let window := (closes.drop (i - 5)).take 5
  let pred := (rule_based_prediction_4h (compute_4h_features sqrt window)).1
  let price := closes.getD i 0
  exitStep price i (entryStep pred price i s)

/-- The full loop of `backtest_ticker` over bars 5 .. n-1, starting flat
with the default initial capital 10000. -/
def backtestLoop (sqrt : ℚ → ℚ) (closes : List ℚ) : BState :=
  ((List.range closes.length).drop 5).foldl (barStep sqrt closes) ⟨none, [], 10000⟩

/-- The state after the end-of-data rule (lines 216-233): any position
still open is force-closed at the final close with reason
end-of-period. -/
def backtestFinal (sqrt : ℚ → ℚ) (closes : List ℚ) : BState :=
  let s := backtestLoop sqrt closes
  match s.position with
  | some p => closeTrade p ((closes.getLast?).getD 0) (closes.length - 1) ExitReason.endOfPeriod s
  | none => s

/-- The completed trade list of a `backtest_ticker` run. -/
def backtestTrades (sqrt : ℚ → ℚ) (closes : List ℚ) : List Trade :=
  (backtestFinal sqrt closes).trades

end Predticker

namespace Predticker

/-- Addition of two finite values is rational addition. -/
lemma FVal.fin_add (a b : ℚ) : (FVal.fin a).add (FVal.fin b) = FVal.fin (a + b) := rfl

/-- Multiplication of two finite values is rational multiplication. -/
lemma FVal.fin_mul (a b : ℚ) : (FVal.fin a).mul (FVal.fin b) = FVal.fin (a * b) := rfl

/-- Subtraction of two finite values is rational subtraction. -/
lemma FVal.fin_sub (a b : ℚ) : (FVal.fin a).sub (FVal.fin b) = FVal.fin (a - b) := by
  simp [FVal.sub, FVal.add, FVal.neg, sub_eq_add_neg]

/-- Absolute value of a finite value is the rational absolute value. -/
lemma FVal.fin_fabs (a : ℚ) : (FVal.fin a).fabs = FVal.fin |a| := rfl

/-- A float value that is finite with rational value in the unit
interval. -/
def InUnit (v : FVal) : Prop := ∃ q : ℚ, v = FVal.fin q ∧ 0 ≤ q ∧ q ≤ 1

/-- The clamp pattern `max(0, min(1, x))` lands in the unit interval. -/
lemma clamp01_mem (x : ℚ) : 0 ≤ max 0 (min 1 x) ∧ max 0 (min 1 x) ≤ 1 :=
  ⟨le_max_left _ _, max_le (by norm_num) (min_le_left _ _)⟩

/-- True on finite values only. -/
def FVal.isFinB : FVal → Bool
  | FVal.fin _ => true
  | _ => false

/-- All twenty snapshot entries are finite (no NaN, no infinities). -/
def Features.AllFinite (f : Features) : Prop :=
  ([f.slope, f.last_return, f.volatility, f.sma_20, f.sma_50, f.ema_12, f.ema_26,
    f.price, f.current_position, f.rsi, f.macd, f.macd_signal, f.macd_histogram,
    f.bb_position, f.atr, f.atr_percent, f.adx, f.k_stoch, f.d_stoch,
    f.avg_volume].all FVal.isFinB) = true

/-- The rational value of the clamp `max(0, min(1, v/40.0))` on one
float value (finite for every input, including NaN and the infinities,
by Python `min`/`max` argument order). -/
def tsQv : FVal → ℚ
  | FVal.fin q => max 0 (min 1 (q / 40))
  | FVal.ninf => 0
  | _ => 1

/-- The rational value of the trend-strength sub-score. -/
def tsQ (f : Features) : ℚ := tsQv f.adx

/-- The trend-strength sub-score evaluates to the finite clamp `tsQ`. -/
lemma trendStrengthScore_eq (f : Features) : trendStrengthScore f = FVal.fin (tsQ f) := by
  unfold trendStrengthScore tsQ
  cases hadx : f.adx with
  | nan => norm_num [FVal.div, FVal.pymin, FVal.pymax, FVal.lt, tsQv]
  | pinf => norm_num [FVal.div, FVal.pymin, FVal.pymax, FVal.lt, tsQv]
  | ninf => norm_num [FVal.div, FVal.pymin, FVal.pymax, FVal.lt, tsQv]
  | fin q =>
      simp only [tsQv]
      have hd : (FVal.fin q).div (FVal.fin 40) = FVal.fin (q / 40) := by
        norm_num [FVal.div]
      rw [hd]
      by_cases h1 : q / 40 < 1
      · have hmin : FVal.pymin (FVal.fin 1) (FVal.fin (q / 40)) = FVal.fin (q / 40) := by
          simp [FVal.pymin, FVal.lt, h1]
        rw [hmin]
        by_cases h0 : 0 < q / 40
        · have hmax : FVal.pymax (FVal.fin 0) (FVal.fin (q / 40)) = FVal.fin (q / 40) := by
            simp [FVal.pymax, FVal.lt, h0]
          rw [hmax]
          exact congrArg FVal.fin (by rw [min_eq_right h1.le, max_eq_right (le_of_lt h0)])
        · have hmax : FVal.pymax (FVal.fin 0) (FVal.fin (q / 40)) = FVal.fin 0 := by
            simp [FVal.pymax, FVal.lt, h0]
          rw [hmax]
          exact congrArg FVal.fin (by rw [min_eq_right h1.le, max_eq_left (le_of_not_lt h0)])
      · have hmin : FVal.pymin (FVal.fin 1) (FVal.fin (q / 40)) = FVal.fin 1 := by
          simp [FVal.pymin, FVal.lt, h1]
        rw [hmin]
        have hmax : FVal.pymax (FVal.fin 0) (FVal.fin 1) = FVal.fin 1 := by
          norm_num [FVal.pymax, FVal.lt]
        rw [hmax]
        exact congrArg FVal.fin
          (by rw [min_eq_left (le_of_not_lt h1), max_eq_right (by norm_num : (0:ℚ) ≤ 1)])

/-- Bounds for the trend-strength sub-score value. -/
lemma tsQ_mem (f : Features) : 0 ≤ tsQ f ∧ tsQ f ≤ 1 := by
  unfold tsQ
  cases f.adx with
  | nan => norm_num [tsQv]
  | pinf => norm_num [tsQv]
  | ninf => norm_num [tsQv]
  | fin q => simpa only [tsQv] using clamp01_mem (q / 40)

/-- Bounds for the trend sub-score value. -/
lemma trendScoreQ_mem (f : Features) : 0 ≤ trendScoreQ f ∧ trendScoreQ f ≤ 1 := by
  unfold trendScoreQ
  split_ifs <;> norm_num

/-- The rational value of the final weighted score of
`enhanced_prediction`. -/
def scoreQ (f : Features) : ℚ :=
  trendScoreQ f * (20/100) + momentumScoreQ f * (25/100) + volatilityScoreQ f * (20/100) +
    tsQ f * (20/100) + stochScoreQ f * (15/100)

/-- The score of `enhanced_prediction` is the finite value `scoreQ`. -/
lemma enhanced_score_eq (f : Features) : (enhanced_prediction f).score = FVal.fin (scoreQ f) := by
  simp only [enhanced_prediction, subScores]
  rw [trendStrengthScore_eq]
  simp only [FVal.fin_mul, FVal.fin_add]
  unfold scoreQ
  rfl

/-- The confidence of `enhanced_prediction` is the finite value
`|scoreQ - 1/2| * 2 * 100`. -/
lemma enhanced_confidence_eq (f : Features) :
    (enhanced_prediction f).confidence = FVal.fin (|scoreQ f - 1/2| * 2 * 100) := by
  have hs : (enhanced_prediction f).confidence
      = (((enhanced_prediction f).score.sub (FVal.fin (1/2))).fabs.mul (FVal.fin 2)).mul
          (FVal.fin 100) := rfl
  rw [hs, enhanced_score_eq]
  simp only [FVal.fin_sub, FVal.fin_fabs, FVal.fin_mul]

/-- The sub-score record of `enhanced_prediction` is `subScores`. -/
lemma enhanced_weights_eq (f : Features) : (enhanced_prediction f).weights = subScores f := rfl

/-- Bounds for the final weighted score. -/
lemma scoreQ_mem (f : Features) : 0 ≤ scoreQ f ∧ scoreQ f ≤ 1 := by
  obtain ⟨h1a, h1b⟩ := trendScoreQ_mem f
  obtain ⟨h2a, h2b⟩ := clamp01_mem ((momentumRawQ f + 2) / 4)
  obtain ⟨h3a, h3b⟩ := clamp01_mem ((volatilityRawQ f + 1) / 2)
  obtain ⟨h4a, h4b⟩ := tsQ_mem f
  obtain ⟨h5a, h5b⟩ := clamp01_mem ((stochRawQ f + 1) / 2)
  unfold scoreQ momentumScoreQ volatilityScoreQ stochScoreQ
  constructor <;> nlinarith

/-- C1: for every feature snapshot with all twenty values finite, each of
the five category sub-scores of `enhanced_prediction` (stored in its
`weights` record) lies in [0,1], and the final weighted score (the
weighted sum with weights 0.20/0.25/0.20/0.20/0.15) lies in [0,1]. -/
theorem C1_subscores_and_score_in_unit (f : Features) (_h : f.AllFinite) :
    InUnit (enhanced_prediction f).weights.trend ∧
    InUnit (enhanced_prediction f).weights.momentum ∧
    InUnit (enhanced_prediction f).weights.volatility ∧
    InUnit (enhanced_prediction f).weights.trend_strength ∧
    InUnit (enhanced_prediction f).weights.stochastic ∧
    InUnit (enhanced_prediction f).score := by
  rw [enhanced_weights_eq, enhanced_score_eq]
  refine ⟨⟨trendScoreQ f, rfl, trendScoreQ_mem f⟩,
          ⟨momentumScoreQ f, rfl, clamp01_mem _⟩,
          ⟨volatilityScoreQ f, rfl, clamp01_mem _⟩,
          ⟨tsQ f, ?_, tsQ_mem f⟩,
          ⟨stochScoreQ f, rfl, clamp01_mem _⟩,
          ⟨scoreQ f, rfl, scoreQ_mem f⟩⟩
  simp [subScores, trendStrengthScore_eq]

/-- Concrete finite snapshot used to witness several theorems. -/
def sampleG : Features :=
  { slope := FVal.fin 1, last_return := FVal.fin 0, volatility := FVal.fin 1,
    sma_20 := FVal.fin 2, sma_50 := FVal.fin 1, ema_12 := FVal.fin 2, ema_26 := FVal.fin 1,
    price := FVal.fin 1, current_position := FVal.fin 0, rsi := FVal.fin 60,
    macd := FVal.fin 1, macd_signal := FVal.fin 0, macd_histogram := FVal.fin 1,
    bb_position := FVal.fin (1/10), atr := FVal.fin 0, atr_percent := FVal.fin 2,
    adx := FVal.fin 0, k_stoch := FVal.fin 10, d_stoch := FVal.fin 10,
    avg_volume := FVal.fin 1 }

/-- C1 witness: the theorem applied to a concrete finite snapshot. -/
theorem C1_witness :
    InUnit (enhanced_prediction sampleG).weights.trend ∧
    InUnit (enhanced_prediction sampleG).weights.momentum ∧
    InUnit (enhanced_prediction sampleG).weights.volatility ∧
    InUnit (enhanced_prediction sampleG).weights.trend_strength ∧
    InUnit (enhanced_prediction sampleG).weights.stochastic ∧
    InUnit (enhanced_prediction sampleG).score :=
  C1_subscores_and_score_in_unit sampleG (by rfl)

/-- C8: the confidence of `enhanced_prediction` equals
`|score - 0.5| * 200`, is 0 when the score is exactly 0.5, never exceeds
100, and is monotone in the score deviation `|score - 0.5|`. -/
theorem C8_confidence (f g : Features)
    (hmono : |scoreQ g - 1/2| ≤ |scoreQ f - 1/2|) :
    (enhanced_prediction f).confidence = FVal.fin (|scoreQ f - 1/2| * 200) ∧
    ((enhanced_prediction f).score = FVal.fin (1/2) →
      (enhanced_prediction f).confidence = FVal.fin 0) ∧
    (∃ c : ℚ, (enhanced_prediction f).confidence = FVal.fin c ∧ 0 ≤ c ∧ c ≤ 100) ∧
    (∃ cf cg : ℚ, (enhanced_prediction f).confidence = FVal.fin cf ∧
      (enhanced_prediction g).confidence = FVal.fin cg ∧ cg ≤ cf) := by
  have hf := enhanced_confidence_eq f
  have hg := enhanced_confidence_eq g
  refine ⟨by rw [hf]; ring_nf, ?_, ?_, ?_⟩
  · intro h0
    rw [enhanced_score_eq] at h0
    have : scoreQ f = 1/2 := by injection h0
    rw [hf, this]
    norm_num
  · refine ⟨|scoreQ f - 1/2| * 2 * 100, hf, by positivity, ?_⟩
    obtain ⟨ha, hb⟩ := scoreQ_mem f
    have habs : |scoreQ f - 1/2| ≤ 1/2 := abs_le.2 ⟨by linarith, by linarith⟩
    linarith
  · exact ⟨|scoreQ f - 1/2| * 2 * 100, |scoreQ g - 1/2| * 2 * 100, hf, hg, by linarith⟩

/-- C8 witness: the theorem applied at a concrete snapshot (the
monotonicity hypothesis discharged by reflexivity). -/
theorem C8_confidence_witness :
    (enhanced_prediction sampleG).confidence = FVal.fin (|scoreQ sampleG - 1/2| * 200) ∧
    ((enhanced_prediction sampleG).score = FVal.fin (1/2) →
      (enhanced_prediction sampleG).confidence = FVal.fin 0) ∧
    (∃ c : ℚ, (enhanced_prediction sampleG).confidence = FVal.fin c ∧ 0 ≤ c ∧ c ≤ 100) ∧
    (∃ cf cg : ℚ, (enhanced_prediction sampleG).confidence = FVal.fin cf ∧
      (enhanced_prediction sampleG).confidence = FVal.fin cg ∧ cg ≤ cf) :=
  C8_confidence sampleG sampleG (le_refl _)

end Predticker

namespace Predticker

/-- Inserting into a list permutes consing. -/
lemma insertDesc_perm (a : ComboA) (l : List ComboA) : (insertDesc a l).Perm (a :: l) := by
  induction l with
  | nil => exact List.Perm.refl _
  | cons b rest ih =>
      unfold insertDesc
      by_cases h : b.accuracy < a.accuracy
      · rw [if_pos h]
      · rw [if_neg h]
        exact (ih.cons b).trans (List.Perm.swap a b rest)

/-- The sort is a permutation of its input. -/
lemma sortByAccDesc_perm (l : List ComboA) : (sortByAccDesc l).Perm l := by
  have key : ∀ (l acc : List ComboA),
      (l.foldl (fun acc c => insertDesc c acc) acc).Perm (acc ++ l) := by
    intro l
    induction l with
    | nil => intro acc; simp
    | cons c rest ih =>
        intro acc
        have h1 := ih (insertDesc c acc)
        have h2 : (insertDesc c acc ++ rest).Perm (acc ++ c :: rest) :=
          ((insertDesc_perm c acc).append_right rest).trans List.perm_middle.symm
        exact (List.foldl_cons _ _ ▸ h1.trans h2)
  simpa using key l []

/-- Sorted in weakly decreasing accuracy order. -/
def SortedDesc (l : List ComboA) : Prop :=
  l.Pairwise (fun a b => b.accuracy ≤ a.accuracy)

/-- Insertion preserves decreasing sortedness. -/
lemma insertDesc_sorted (a : ComboA) (l : List ComboA) (h : SortedDesc l) :
    SortedDesc (insertDesc a l) := by
  induction l with
  | nil => exact List.pairwise_singleton _ _
  | cons b rest ih =>
      unfold insertDesc
      unfold SortedDesc at h ⊢
      rw [List.pairwise_cons] at h
      by_cases hba : b.accuracy < a.accuracy
      · rw [if_pos hba]
        refine List.Pairwise.cons ?_ (List.Pairwise.cons h.1 h.2)
        intro y hy
        rcases List.mem_cons.mp hy with rfl | hy'
        · exact hba.le
        · exact (h.1 y hy').trans hba.le
      · rw [if_neg hba]
        refine List.Pairwise.cons ?_ (ih h.2)
        intro y hy
        rcases List.mem_cons.mp ((insertDesc_perm a rest).mem_iff.mp hy) with rfl | h1
        · exact le_of_not_lt hba
        · exact h.1 y h1
  
/-- The sort output is sorted in decreasing accuracy order. -/
lemma sortByAccDesc_sorted (l : List ComboA) : SortedDesc (sortByAccDesc l) := by
  have key : ∀ (l acc : List ComboA), SortedDesc acc →
      SortedDesc (l.foldl (fun acc c => insertDesc c acc) acc) := by
    intro l
    induction l with
    | nil => intro acc h; exact h
    | cons c rest ih => intro acc h; exact ih _ (insertDesc_sorted c acc h)
  exact key l [] List.Pairwise.nil

/-- The six candidates scored on any corpus. -/
lemma trainScored_length (fs : List Features) (acts : List ℕ) :
    (trainScored fs acts).length = 6 := by
  simp [trainScored, generate_weight_combinations]

/-- The sorted candidate list always has six entries. -/
lemma trainSorted_length (fs : List Features) (acts : List ℕ) :
    (trainSorted fs acts).length = 6 := by
  unfold trainSorted
  rw [(sortByAccDesc_perm _).length_eq, trainScored_length]

/-- C3 (amended): `train` assigns the accuracy-ranked FIRST candidate to
both trending buckets (that one does carry the maximal measured
accuracy), but assigns the accuracy-ranked THIRD candidate — not the
highest-accuracy one — to the 'ranging' and 'ranging_high' buckets. -/
theorem C3_train_bucket_assignment (fs : List Features) (acts : List ℕ) :
    (train fs acts).trending_strong = (trainSorted fs acts)[0]? ∧
    (train fs acts).trending_weak = (trainSorted fs acts)[0]? ∧
    (train fs acts).ranging = (trainSorted fs acts)[2]? ∧
    (train fs acts).ranging_high = (trainSorted fs acts)[2]? ∧
    (∀ b0, (trainSorted fs acts)[0]? = some b0 →
      ∀ c ∈ trainScored fs acts, c.accuracy ≤ b0.accuracy) := by
  have hlen : 2 < (trainSorted fs acts).length := by rw [trainSorted_length]; norm_num
  refine ⟨rfl, rfl, ?_, ?_, ?_⟩
  · unfold train; simp [hlen]
  · unfold train; simp [hlen]
  · intro b0 h0 c hc
    have hperm := sortByAccDesc_perm (trainScored fs acts)
    have hsorted := sortByAccDesc_sorted (trainScored fs acts)
    have hc2 : c ∈ trainSorted fs acts := by
      unfold trainSorted
      exact hperm.mem_iff.mpr hc
    cases hbest : trainSorted fs acts with
    | nil => rw [hbest] at h0; simp at h0
    | cons x rest =>
        have hb0 : b0 = x := by rw [hbest] at h0; simp at h0; exact h0.symm
        subst hb0
        rw [hbest] at hc2
        unfold trainSorted at hbest
        rw [hbest] at hsorted
        unfold SortedDesc at hsorted
        rw [List.pairwise_cons] at hsorted
        rcases List.mem_cons.mp hc2 with rfl | hmem
        · exact le_refl _
        · exact hsorted.1 c hmem

/-- C3 witness: the first-bucket equation of the theorem at a concrete
corpus. -/
theorem C3_train_bucket_assignment_witness :
    (train [sampleG] [1]).trending_strong = (trainSorted [sampleG] [1])[0]? :=
  (C3_train_bucket_assignment [sampleG] [1]).1

/-- Concrete corpus snapshot separating the candidates: RSI oversold and
maximal ADX reward momentum- and ADX-weighted candidates, all other
categories score 0. -/
def sampleS : Features :=
  { slope := FVal.fin 0, last_return := FVal.fin 0, volatility := FVal.fin 1,
    sma_20 := FVal.fin 0, sma_50 := FVal.fin 0, ema_12 := FVal.fin 0, ema_26 := FVal.fin 0,
    price := FVal.fin 1, current_position := FVal.fin 0, rsi := FVal.fin 25,
    macd := FVal.fin 0, macd_signal := FVal.fin 0, macd_histogram := FVal.fin 0,
    bb_position := FVal.fin 0, atr := FVal.fin 0, atr_percent := FVal.fin 2,
    adx := FVal.fin 40, k_stoch := FVal.fin 90, d_stoch := FVal.fin 90,
    avg_volume := FVal.fin 1 }

/-- C3 counterexample: on a one-sample corpus the 'ranging' bucket is
assigned the `standard` candidate with measured accuracy 0, although the
`momentum_heavy` candidate (stored in the trending buckets) measured
accuracy 100 — so not every bucket receives the candidate with the
highest measured accuracy. -/
theorem C3_counterexample :
    (train [sampleS] [1]).ranging =
      some ⟨⟨⟨20/100, 25/100, 20/100, 20/100, 15/100⟩, CName.standard⟩, 0⟩ ∧
    (train [sampleS] [1]).trending_strong =
      some ⟨⟨⟨15/100, 40/100, 15/100, 20/100, 10/100⟩, CName.momentum_heavy⟩, 100⟩ ∧
    (0 : ℚ) < 100 :=
  ⟨by with_unfolding_all rfl, by with_unfolding_all rfl, by norm_num⟩

/-- C10: after training on any corpus the two trending buckets hold the
same candidate (the accuracy-ranked first), the two ranging buckets hold
the same candidate (the accuracy-ranked third; six candidates are always
tested), and hence at most two distinct weight combinations appear
across the four buckets. -/
theorem C10_bucket_structure (fs : List Features) (acts : List ℕ) :
    (train fs acts).trending_strong = (train fs acts).trending_weak ∧
    (train fs acts).ranging = (train fs acts).ranging_high ∧
    (train fs acts).trending_strong = (trainSorted fs acts)[0]? ∧
    (train fs acts).ranging = (trainSorted fs acts)[2]? ∧
    (∀ b ∈ [(train fs acts).trending_strong, (train fs acts).trending_weak,
            (train fs acts).ranging, (train fs acts).ranging_high],
      b = (trainSorted fs acts)[0]? ∨ b = (trainSorted fs acts)[2]?) := by
  have hlen : 2 < (trainSorted fs acts).length := by rw [trainSorted_length]; norm_num
  have hr : (train fs acts).ranging = (trainSorted fs acts)[2]? := by
    unfold train; simp [hlen]
  have hrh : (train fs acts).ranging_high = (trainSorted fs acts)[2]? := by
    unfold train; simp [hlen]
  refine ⟨rfl, hr.trans hrh.symm, rfl, hr, ?_⟩
  intro b hb
  simp only [List.mem_cons, List.not_mem_nil, or_false] at hb
  rcases hb with rfl | rfl | rfl | rfl
  · exact Or.inl rfl
  · exact Or.inl rfl
  · exact Or.inr hr
  · exact Or.inr hrh

/-- C10 witness: the trending-bucket equality of the theorem at a
concrete corpus. -/
theorem C10_bucket_structure_witness :
    (train [sampleS] [1]).trending_strong = (train [sampleS] [1]).trending_weak :=
  (C10_bucket_structure [sampleS] [1]).1

end Predticker

namespace Predticker

/-- Counting loop as `countP`. -/
lemma foldl_count_eq_countP {α : Type} (P : α → Prop) [DecidablePred P]
    (l : List α) (n : ℕ) :
    l.foldl (fun acc x => if P x then acc + 1 else acc) n
      = n + l.countP (fun x => decide (P x)) := by
  induction l generalizing n with
  | nil => simp
  | cons x rest ih =>
      by_cases h : P x
      · simp only [List.foldl_cons, if_pos h, ih, List.countP_cons, decide_eq_true_eq]
        omega
      · simp [h, ih, List.countP_cons]

/-- C4 (amended): the accuracy recorded by `test_weight_combination`
equals the fraction of samples on which the SIMPLIFIED per-sample scorer
(`simplifiedPredict`, not the ScoringEngine) calls the stored actual
direction, times 100. -/
theorem C4_accuracy_counts_simplified_scorer (w : CatW)
    (fs : List Features) (acts : List ℕ)
    (hlen : fs.length = acts.length) (hne : 0 < acts.length) :
    test_weight_combination w fs acts
      = (((List.zip fs acts).countP (fun fa => decide (simplifiedPredict w fa.1 = fa.2)) : ℚ)
          / (acts.length : ℚ)) * 100 := by
  unfold test_weight_combination
  rw [if_neg (fun hcon => hcon hlen), if_pos hne, foldl_count_eq_countP]
  norm_num

/-- C4 witness: the theorem applied to a concrete one-sample corpus. -/
theorem C4_accuracy_counts_simplified_scorer_witness :
    test_weight_combination defaultWeights [sampleG] [1]
      = (((List.zip [sampleG] [1]).countP
            (fun fa => decide (simplifiedPredict defaultWeights fa.1 = fa.2)) : ℚ)
          / (([1].length : ℚ))) * 100 :=
  C4_accuracy_counts_simplified_scorer defaultWeights [sampleG] [1] rfl (by norm_num)

/-- C4 counterexample: on a concrete snapshot the simplified per-sample
score (269/600, a Down call) differs from the ScoringEngine score
(59/80, an Up call) under the very same standard weights, so with actual
direction Up the recorded accuracy is 0 while the ScoringEngine itself
calls the direction correctly. -/
theorem C4_counterexample :
    simplifiedScore defaultWeights sampleG = FVal.fin (269/600) ∧
    (enhanced_prediction sampleG).score = FVal.fin (59/80) ∧
    ((269 : ℚ)/600) ≠ 59/80 ∧
    FVal.lt (FVal.fin (1/2)) (enhanced_prediction sampleG).score = true ∧
    test_weight_combination defaultWeights [sampleG] [1] = 0 :=
  ⟨by with_unfolding_all rfl, by with_unfolding_all rfl, by norm_num,
   by with_unfolding_all rfl, by with_unfolding_all rfl⟩

/-- C7 (amended): with an untrained weight store, regime-adaptive
prediction uses exactly the static default weights — but the fallback is
NOT observable in the signal list: the signals of
`enhanced_prediction_adaptive` never depend on which weight function the
optimizer supplies. -/
theorem C7_untrained_fallback_silent (st : RegimeState) (f : Features)
    (hU : st.is_trained = false) :
    st.get_adaptive_weights f = defaultWeights ∧
    enhanced_prediction_adaptive f (some st.get_adaptive_weights) true
      = enhanced_prediction_adaptive f (some (fun _ => defaultWeights)) true ∧
    ∀ w1 w2 : Features → CatW,
      (enhanced_prediction_adaptive f (some w1) true).signals
        = (enhanced_prediction_adaptive f (some w2) true).signals := by
  have h1 : st.get_adaptive_weights f = defaultWeights := by
    unfold RegimeState.get_adaptive_weights
    rw [hU]
    rfl
  refine ⟨h1, ?_, fun w1 w2 => rfl⟩
  simp only [enhanced_prediction_adaptive, Option.isSome_some, Option.getD_some,
    Bool.and_self, if_true, h1]

/-- C7 witness: the fallback equation of the theorem at the initial
(untrained) state and a concrete snapshot. -/
theorem C7_untrained_fallback_silent_witness :
    initialRegimeState.get_adaptive_weights sampleG = defaultWeights :=
  (C7_untrained_fallback_silent initialRegimeState sampleG rfl).1

/-- A concrete snapshot in the strong-trend regime (ADX 40). -/
def sampleH : Features := { sampleG with adx := FVal.fin 40 }

/-- A trained weight store whose buckets all hold the momentum-heavy
candidate. -/
def trainedState : RegimeState :=
  { trending_strong := some ⟨⟨⟨15/100, 40/100, 15/100, 20/100, 10/100⟩, CName.momentum_heavy⟩, 100⟩
    trending_weak := some ⟨⟨⟨15/100, 40/100, 15/100, 20/100, 10/100⟩, CName.momentum_heavy⟩, 100⟩
    ranging := some ⟨⟨⟨15/100, 40/100, 15/100, 20/100, 10/100⟩, CName.momentum_heavy⟩, 100⟩
    ranging_high := some ⟨⟨⟨15/100, 40/100, 15/100, 20/100, 10/100⟩, CName.momentum_heavy⟩, 100⟩
    is_trained := true }

/-- C7 counterexample: an untrained store (silent fallback to defaults)
and a trained store with different weights produce IDENTICAL signal
lists on the same snapshot even though their scores differ (15/16
versus 9/10): the fallback cannot be observed from the Prediction's
signal list. -/
theorem C7_counterexample :
    initialRegimeState.is_trained = false ∧
    trainedState.is_trained = true ∧
    (enhanced_prediction_adaptive sampleH (some initialRegimeState.get_adaptive_weights) true).signals
      = (enhanced_prediction_adaptive sampleH (some trainedState.get_adaptive_weights) true).signals ∧
    (enhanced_prediction_adaptive sampleH (some initialRegimeState.get_adaptive_weights) true).score
      = FVal.fin (15/16) ∧
    (enhanced_prediction_adaptive sampleH (some trainedState.get_adaptive_weights) true).score
      = FVal.fin (9/10) ∧
    ((15 : ℚ)/16) ≠ 9/10 :=
  ⟨rfl, rfl, by with_unfolding_all rfl, by with_unfolding_all rfl,
   by with_unfolding_all rfl, by norm_num⟩

end Predticker

namespace Predticker

/-- A flat (constant-price) 60-bar series: every bar has
high = low = close = 100 and volume 1000. -/
def flatDf : OHLCV :=
  { high := List.replicate 60 100
    low := List.replicate 60 100
    close := List.replicate 60 100
    volume := List.replicate 60 1000 }

/-- The concrete square-root model sends 0 to 0. -/
lemma ratSqrt_zero : ratSqrt 0 = 0 := by with_unfolding_all rfl

/-- On the flat series every full 20-bar rolling variance is 0, so the
rolling standard deviation is `sqrt 0 = 0` after the warm-up NaNs,
independently of the square-root model. -/
lemma flat_rollingStd20 (sqrt : ℚ → ℚ) (h : sqrt 0 = 0) :
    Series.rollingStd sqrt 20 flatDf.closeS
      = List.replicate 19 FVal.nan ++ List.replicate 41 (FVal.fin 0) := by
  have hv : Series.rollingApply 20 Series.varW flatDf.closeS
      = List.replicate 19 FVal.nan ++ List.replicate 41 (FVal.fin 0) := by
    with_unfolding_all rfl
  unfold Series.rollingStd
  rw [hv]
  simp only [List.map_append, List.map_replicate]
  simp [FVal.fsqrt, h]

/-- On the flat series the whole-series standard deviation is
`sqrt 0 = 0` for any square-root model. -/
lemma flat_seriesStd (sqrt : ℚ → ℚ) (h : sqrt 0 = 0) :
    Series.seriesStd sqrt flatDf.closeS = FVal.fin 0 := by
  have hfil : flatDf.closeS.filter (fun x => !x.isNan)
      = List.replicate 60 (FVal.fin 100) := by
    with_unfolding_all rfl
  have hvar : Series.varW (List.replicate 60 (FVal.fin 100)) = FVal.fin 0 := by
    with_unfolding_all rfl
  simp only [Series.seriesStd, hfil, hvar, List.length_replicate]
  rw [if_neg (by norm_num : ¬ (60 : ℕ) ≤ 1)]
  simp [FVal.fsqrt, h]

/-- On the flat series the feature snapshot does not depend on the
square-root model (the only square roots taken are of 0). -/
lemma flat_features_sqrt_irrelevant (sqrt : ℚ → ℚ) (h : sqrt 0 = 0) :
    compute_enhanced_features sqrt flatDf = compute_enhanced_features ratSqrt flatDf := by
  have h1 := flat_rollingStd20 sqrt h
  have h2 := flat_rollingStd20 ratSqrt ratSqrt_zero
  have h3 := flat_seriesStd sqrt h
  have h4 := flat_seriesStd ratSqrt ratSqrt_zero
  simp only [compute_enhanced_features, calculate_bollinger_bands, h1, h2, h3, h4]

/-- C6 (amended): on a flat 60-bar series the slope is 0, but the RSI
entering the scoring step is NaN (there is no division-by-zero fallback
to 50 in `calculate_rsi`; the NaN lands in the neutral RSI branch), the
final score is 0.6 and the confidence is 20 — not near 0. -/
theorem C6_flat_series (sqrt : ℚ → ℚ) (h : sqrt 0 = 0) :
    (compute_enhanced_features sqrt flatDf).slope = FVal.fin 0 ∧
    (compute_enhanced_features sqrt flatDf).rsi = FVal.nan ∧
    (enhanced_prediction (compute_enhanced_features sqrt flatDf)).score = FVal.fin (3/5) ∧
    (enhanced_prediction (compute_enhanced_features sqrt flatDf)).confidence = FVal.fin 20 := by
  rw [flat_features_sqrt_irrelevant sqrt h]
  exact ⟨by with_unfolding_all rfl, by with_unfolding_all rfl,
         by with_unfolding_all rfl, by with_unfolding_all rfl⟩

/-- C6 witness: the theorem at the concrete square-root model. -/
theorem C6_flat_series_witness :
    (compute_enhanced_features ratSqrt flatDf).slope = FVal.fin 0 ∧
    (compute_enhanced_features ratSqrt flatDf).rsi = FVal.nan ∧
    (enhanced_prediction (compute_enhanced_features ratSqrt flatDf)).score = FVal.fin (3/5) ∧
    (enhanced_prediction (compute_enhanced_features ratSqrt flatDf)).confidence = FVal.fin 20 :=
  C6_flat_series ratSqrt ratSqrt_zero

/-- C6 counterexample: on the flat 60-bar series the RSI that reaches
the scoring step is NaN, not 50, and the resulting confidence is 20,
not 0. -/
theorem C6_counterexample :
    (compute_enhanced_features ratSqrt flatDf).rsi = FVal.nan ∧
    (compute_enhanced_features ratSqrt flatDf).rsi ≠ FVal.fin 50 ∧
    (enhanced_prediction (compute_enhanced_features ratSqrt flatDf)).confidence = FVal.fin 20 ∧
    (20 : ℚ) ≠ 0 :=
  ⟨by with_unfolding_all rfl, by with_unfolding_all decide,
   by with_unfolding_all rfl, by norm_num⟩

end Predticker

namespace Predticker

/-- C2 (amended): whenever the exit block closes a position, the
recorded exit price is the CURRENT CLOSE (the bar close that breached
the level), not the stop-loss/take-profit level itself; the reasons are
as the spec states (stop-loss checked first, then take-profit, with
inverted comparisons for SHORT). -/
theorem C2_exit_records_close (p : Position) (price : ℚ) (i : ℕ) (s : BState)
    (hp : s.position = some p) :
    (p.ptype = PosType.long → price ≤ p.stop_loss →
      (exitStep price i s).position = none ∧
      (exitStep price i s).trades = s.trades ++
        [⟨p.entry, price, p.ptype, price - p.entry, (price - p.entry) / p.entry * 100,
          ExitReason.stopLoss, p.entryIdx, i⟩]) ∧
    (p.ptype = PosType.long → ¬ price ≤ p.stop_loss → p.take_profit ≤ price →
      (exitStep price i s).position = none ∧
      (exitStep price i s).trades = s.trades ++
        [⟨p.entry, price, p.ptype, price - p.entry, (price - p.entry) / p.entry * 100,
          ExitReason.takeProfit, p.entryIdx, i⟩]) ∧
    (p.ptype = PosType.short → p.stop_loss ≤ price →
      (exitStep price i s).position = none ∧
      (exitStep price i s).trades = s.trades ++
        [⟨p.entry, price, p.ptype, p.entry - price, (p.entry - price) / p.entry * 100,
          ExitReason.stopLoss, p.entryIdx, i⟩]) ∧
    (p.ptype = PosType.short → ¬ p.stop_loss ≤ price → price ≤ p.take_profit →
      (exitStep price i s).position = none ∧
      (exitStep price i s).trades = s.trades ++
        [⟨p.entry, price, p.ptype, p.entry - price, (p.entry - price) / p.entry * 100,
          ExitReason.takeProfit, p.entryIdx, i⟩]) := by
  refine ⟨?_, ?_, ?_, ?_⟩
  · intro hty hsl
    simp [exitStep, closeTrade, hp, hty, hsl]
  · intro hty hnsl htp
    simp [exitStep, closeTrade, hp, hty, hnsl, htp]
  · intro hty hsl
    simp [exitStep, closeTrade, hp, hty, hsl]
  · intro hty hnsl htp
    simp [exitStep, closeTrade, hp, hty, hnsl, htp]

/-- A concrete open LONG position used to witness the exit rule. -/
def samplePos : Position :=
  { ptype := PosType.long, entry := 100, stop_loss := 98, take_profit := 104, entryIdx := 0 }

/-- A concrete loop state holding `samplePos`. -/
def sampleState : BState := { position := some samplePos, trades := [], equity := 10000 }

/-- C2 witness: the stop-loss clause of the theorem at a close of 97
(below the stop 98): the trade exits at 97 with reason stop-loss. -/
theorem C2_exit_records_close_witness :
    (exitStep 97 1 sampleState).position = none ∧
    (exitStep 97 1 sampleState).trades = sampleState.trades ++
      [⟨samplePos.entry, 97, samplePos.ptype, 97 - samplePos.entry,
        (97 - samplePos.entry) / samplePos.entry * 100,
        ExitReason.stopLoss, samplePos.entryIdx, 1⟩] :=
  (C2_exit_records_close samplePos 97 1 sampleState rfl).1 rfl (by norm_num [samplePos])

/-- The close series of the concrete backtest run used as
counterexample: five warm-up bars, a flat bar that opens a SHORT, then
a crash through the take-profit level. -/
def sampleCloses : List ℚ := [100, 100, 100, 100, 100, 100, 50]

/-- C2 counterexample: in the concrete run the SHORT opened at 100 has
take-profit level 95, yet when the close 50 breaches that level the
recorded trade exits at 50 with reason take-profit — the exit price does
not equal the take-profit level. -/
theorem C2_counterexample :
    (barStep ratSqrt sampleCloses ⟨none, [], 10000⟩ 5).position
      = some ⟨PosType.short, 100, 105, 95, 5⟩ ∧
    backtestTrades ratSqrt sampleCloses
      = [⟨100, 50, PosType.short, 50, 50, ExitReason.takeProfit, 5, 6⟩] ∧
    (50 : ℚ) ≠ 95 :=
  ⟨by with_unfolding_all rfl, by with_unfolding_all rfl, by norm_num⟩

/-- C5 (amended): a LONG opens with stop -2 percent and target
+4 percent of the entry (risk:reward 1:2), but a SHORT opens with stop
+5 percent and target -5 percent (risk:reward 1:1) — not the mirror of
the LONG levels. -/
theorem C5_entry_levels (pred : Dir) (price : ℚ) (i : ℕ) (s : BState)
    (hflat : s.position = none) :
    (pred = Dir.up →
      (entryStep pred price i s).position
        = some ⟨PosType.long, price, price * (98/100), price * (104/100), i⟩ ∧
      price * (104/100) - price = 2 * (price - price * (98/100))) ∧
    (pred = Dir.down →
      (entryStep pred price i s).position
        = some ⟨PosType.short, price, price * (105/100), price * (95/100), i⟩ ∧
      price - price * (95/100) = price * (105/100) - price) := by
  constructor
  · intro hpred
    subst hpred
    exact ⟨by simp [entryStep, hflat], by ring⟩
  · intro hpred
    subst hpred
    exact ⟨by simp [entryStep, hflat], by ring⟩

/-- C5 witness: the LONG clause of the theorem at entry price 100 from
the flat state. -/
theorem C5_entry_levels_witness :
    (entryStep Dir.up 100 0 ⟨none, [], 10000⟩).position
      = some ⟨PosType.long, 100, 100 * (98/100), 100 * (104/100), 0⟩ ∧
    (100 : ℚ) * (104/100) - 100 = 2 * (100 - 100 * (98/100)) :=
  (C5_entry_levels Dir.up 100 0 ⟨none, [], 10000⟩ rfl).1 rfl

/-- C5 counterexample: the SHORT opened in the concrete run has stop 105
and target 95, so its stop is not entry times 1.02, its target is not
entry times 0.96, and its take-profit distance is not twice its
stop-loss distance. -/
theorem C5_counterexample :
    (barStep ratSqrt sampleCloses ⟨none, [], 10000⟩ 5).position
      = some ⟨PosType.short, 100, 105, 95, 5⟩ ∧
    (105 : ℚ) ≠ 100 * (102/100) ∧
    (95 : ℚ) ≠ 100 * (96/100) ∧
    (100 : ℚ) - 95 ≠ 2 * (105 - 100) :=
  ⟨by with_unfolding_all rfl, by norm_num, by norm_num, by norm_num⟩

end Predticker

namespace Predticker

/-- Invariant of the backtest loop state at bar bound `b`: completed
trades form a chain of disjoint half-open index intervals (each exit at
or before the next entry), every trade closes no later than `b`, and an
open position was entered after every recorded exit and no later than
`b`. -/
def BInv (b : ℕ) (s : BState) : Prop :=
  s.trades.Pairwise (fun t u => t.exitIdx ≤ u.entryIdx) ∧
  (∀ t ∈ s.trades, t.entryIdx ≤ t.exitIdx ∧ t.exitIdx ≤ b) ∧
  (∀ p, s.position = some p → (∀ t ∈ s.trades, t.exitIdx ≤ p.entryIdx) ∧ p.entryIdx ≤ b)

/-- The invariant is monotone in the bound. -/
lemma bInv_mono {b b' : ℕ} {s : BState} (hb : b ≤ b') (h : BInv b s) : BInv b' s :=
  ⟨h.1, fun t ht => ⟨(h.2.1 t ht).1, le_trans (h.2.1 t ht).2 hb⟩,
   fun p hp => ⟨(h.2.2 p hp).1, le_trans (h.2.2 p hp).2 hb⟩⟩

/-- The invariant holds in the initial flat state. -/
lemma bInv_init : BInv 0 ⟨none, [], 10000⟩ := by
  refine ⟨List.Pairwise.nil, ?_, ?_⟩
  · intro t ht
    simp at ht
  · intro p hp
    simp at hp

/-- The entry block preserves the invariant at bar `i`. -/
lemma bInv_entryStep (pred : Dir) (price : ℚ) (i : ℕ) (s : BState) (h : BInv i s) :
    BInv i (entryStep pred price i s) := by
  unfold entryStep
  cases hpos : s.position with
  | none =>
      cases pred with
      | up =>
          refine ⟨h.1, h.2.1, ?_⟩
          intro p hp
          simp only [Option.some.injEq] at hp
          rw [← hp]
          exact ⟨fun t ht => (h.2.1 t ht).2, le_refl i⟩
      | down =>
          refine ⟨h.1, h.2.1, ?_⟩
          intro p hp
          simp only [Option.some.injEq] at hp
          rw [← hp]
          exact ⟨fun t ht => (h.2.1 t ht).2, le_refl i⟩
  | some q =>
      cases pred with
      | up => exact h
      | down => exact h

/-- Closing the open position at bar `i` preserves the invariant. -/
lemma bInv_closeTrade (p : Position) (price : ℚ) (i : ℕ) (reason : ExitReason)
    (s : BState) (hp : s.position = some p) (h : BInv i s) :
    BInv i (closeTrade p price i reason s) := by
  obtain ⟨h1, h2, h3⟩ := h
  obtain ⟨h3a, h3b⟩ := h3 p hp
  refine ⟨?_, ?_, ?_⟩
  · unfold closeTrade
    rw [List.pairwise_append]
    refine ⟨h1, List.pairwise_singleton _ _, ?_⟩
    intro a ha b hb
    rw [List.mem_singleton] at hb
    rw [hb]
    exact h3a a ha
  · intro t ht
    rcases List.mem_append.mp ht with hold | hnew
    · exact ⟨(h2 t hold).1, (h2 t hold).2⟩
    · rw [List.mem_singleton] at hnew
      rw [hnew]
      exact ⟨h3b, le_refl i⟩
  · intro q hq
    simp [closeTrade] at hq

/-- The exit block preserves the invariant at bar `i`. -/
lemma bInv_exitStep (price : ℚ) (i : ℕ) (s : BState) (h : BInv i s) :
    BInv i (exitStep price i s) := by
  unfold exitStep
  cases hpos : s.position with
  | none => exact h
  | some p =>
      dsimp only
      cases hty : p.ptype with
      | long =>
          dsimp only
          split_ifs with h1 h2
          · exact bInv_closeTrade p price i ExitReason.stopLoss s hpos h
          · exact bInv_closeTrade p price i ExitReason.takeProfit s hpos h
          · exact h
      | short =>
          dsimp only
          split_ifs with h1 h2
          · exact bInv_closeTrade p price i ExitReason.stopLoss s hpos h
          · exact bInv_closeTrade p price i ExitReason.takeProfit s hpos h
          · exact h

/-- One loop iteration at bar `i` maps an invariant state at any bound
at most `i` to an invariant state at bound `i`. -/
lemma bInv_barStep (sqrt : ℚ → ℚ) (closes : List ℚ) (b i : ℕ) (s : BState)
    (hbi : b ≤ i) (h : BInv b s) : BInv i (barStep sqrt closes s i) := by
  unfold barStep
  exact bInv_exitStep _ _ _ (bInv_entryStep _ _ _ _ (bInv_mono hbi h))

/-- Folding the loop body over an increasing index list bounded below by
the current bound and above by `B` preserves the invariant up to `B`. -/
lemma bInv_fold (sqrt : ℚ → ℚ) (closes : List ℚ) (l : List ℕ) :
    ∀ (b B : ℕ) (s : BState), BInv b s → b ≤ B → (∀ j ∈ l, b ≤ j) → (∀ j ∈ l, j ≤ B) →
    l.Pairwise (· ≤ ·) → BInv B (l.foldl (barStep sqrt closes) s) := by
  induction l with
  | nil =>
      intro b B s h hbB _ _ _
      exact bInv_mono hbB h
  | cons j rest ih =>
      intro b B s h hbB hlb hub hpair
      rw [List.foldl_cons]
      rw [List.pairwise_cons] at hpair
      have hstep : BInv j (barStep sqrt closes s j) :=
        bInv_barStep sqrt closes b j s (hlb j (List.mem_cons_self j rest)) h
      exact ih j B _ hstep (hub j (List.mem_cons_self j rest))
        (fun k hk => hpair.1 k hk)
        (fun k hk => hub k (List.mem_cons_of_mem j hk)) hpair.2

end Predticker

namespace Predticker

/-- C9: in every backtest run at most one position is open at a time (a
position is only ever opened from the flat state — the entry block
leaves a non-flat state untouched), and the completed trade records form
a chain in which each trade exits at or before the next trade's entry
bar, with entry at or before exit — so the half-open bar-index intervals
[entry, exit) of the recorded trades are pairwise disjoint. -/
theorem C9_single_position_no_overlap (sqrt : ℚ → ℚ) (closes : List ℚ) :
    (backtestTrades sqrt closes).Pairwise (fun t u => t.exitIdx ≤ u.entryIdx) ∧
    (∀ t ∈ backtestTrades sqrt closes, t.entryIdx ≤ t.exitIdx) ∧
    (∀ (pred : Dir) (price : ℚ) (i : ℕ) (s : BState),
      s.position ≠ none → (entryStep pred price i s).position = s.position) := by
  have hub : ∀ j ∈ (List.range closes.length).drop 5, j ≤ closes.length - 1 := by
    intro j hj
    have hj2 := List.mem_range.mp (List.mem_of_mem_drop hj)
    omega
  have hpair : ((List.range closes.length).drop 5).Pairwise (· ≤ ·) := by
    have h1 : ((List.range closes.length).drop 5).Pairwise (· < ·) :=
      (List.pairwise_lt_range closes.length).sublist (List.drop_sublist 5 _)
    exact h1.imp le_of_lt
  have hloop : BInv (closes.length - 1) (backtestLoop sqrt closes) := by
    unfold backtestLoop
    exact bInv_fold sqrt closes _ 0 (closes.length - 1) _ bInv_init (Nat.zero_le _)
      (fun j _ => Nat.zero_le j) hub hpair
  have hfinal : BInv (closes.length - 1) (backtestFinal sqrt closes) := by
    unfold backtestFinal
    dsimp only
    cases hpos : (backtestLoop sqrt closes).position with
    | none => exact hloop
    | some p =>
        exact bInv_closeTrade p ((closes.getLast?).getD 0) (closes.length - 1)
          ExitReason.endOfPeriod _ hpos hloop
  refine ⟨hfinal.1, fun t ht => (hfinal.2.1 t ht).1, ?_⟩
  intro pred price i s hne
  unfold entryStep
  cases hpos : s.position with
  | none => exact absurd hpos hne
  | some q => cases pred <;> (dsimp only; exact hpos)

/-- C9 witness: the disjoint-interval chain of the concrete run. -/
theorem C9_single_position_no_overlap_witness :
    (backtestTrades ratSqrt sampleCloses).Pairwise (fun t u => t.exitIdx ≤ u.entryIdx) :=
  (C9_single_position_no_overlap ratSqrt sampleCloses).1

end Predticker
